import Mathlib

/-!
Shallow embedding of `src/particles.ts` (hasparus/magnetic-logo): a WebGPU
particle animation whose CPU side samples a logo bitmap into weighted
candidate points and seeds particle / mass / rest buffers from a seeded
PRNG, and whose GPU side runs a per-frame force simulation over
double-buffered particle state.

Modelling conventions:
* JavaScript 32-bit integer bit operations are modelled on `Nat` with an
  explicit `% 2^32`; the two's-complement bit patterns of JS `^`, `|`,
  `>>>` and `Math.imul` agree with the unsigned view used here.
* `f32` arithmetic is idealised as exact real arithmetic (`ℝ`); the PRNG
  output `t / 2^32` is kept as an exact rational `ℚ` and coerced.
* GPU storage buffers are `List`s; a compute dispatch over `n` threads is
  a map over `List.range n`.
* The browser-side failure points (WebGPU context unavailable, 2d canvas
  context unavailable) are booleans supplied to initialisation.
-/

namespace MagneticLogo

/-- `2^32`, the modulus of all JS 32-bit integer arithmetic in `makeRng`. -/
def U32 : Nat := 4294967296

/-- State transition of `makeRng`'s closure: `s = (s + 0x6d2b79f5) >>> 0`. -/
def rngNext (s : Nat) : Nat := (s + 0x6D2B79F5) % U32

/-- Output of one `rng()` call as a function of the already-advanced state
`s`: `t = imul(s ^ (s >>> 15), 1 | s); t ^= t + imul(t ^ (t >>> 7), 61 | t);
return ((t ^ (t >>> 14)) >>> 0) / 4294967296`. -/
def rngOut (s : Nat) : ℚ :=
  let t1 := ((s ^^^ (s >>> 15)) * (1 ||| s)) % U32
  let t2 := t1 ^^^ ((t1 + ((t1 ^^^ (t1 >>> 7)) * (61 ||| t1)) % U32) % U32)
  ((t2 ^^^ (t2 >>> 14) : Nat) : ℚ) / (U32 : ℚ)

/-- One call of the closure returned by `makeRng`: advance the state and
produce the value. -/
def rngStep (s : Nat) : Nat × ℚ := (rngNext s, rngOut (rngNext s))

/-- A decoded RGBA bitmap as produced by `getImageData`: `data` is the byte
array, indexed `(y * width + x) * 4 + c`. -/
structure Bitmap where
  width : Nat
  height : Nat
  data : List Nat

/-- `isSolid` from `loadLogoPixelPositions`: in-bounds and alpha byte
`data[(py*width+px)*4 + 3] ?? 0` strictly positive. -/
def isSolid (bmp : Bitmap) (px py : Int) : Bool :=
  if px < 0 ∨ py < 0 ∨ px ≥ (bmp.width : Int) ∨ py ≥ (bmp.height : Int) then false
  else decide (0 < bmp.data.getD ((py.toNat * bmp.width + px.toNat) * 4 + 3) 0)

/-- `touchesEmpty`: some 8-neighbour of `(x, y)` is not solid. -/
def touchesEmpty (bmp : Bitmap) (x y : Int) : Bool :=
  !isSolid bmp (x + 1) y || !isSolid bmp (x - 1) y ||
  !isSolid bmp x (y + 1) || !isSolid bmp x (y - 1) ||
  !isSolid bmp (x + 1) (y + 1) || !isSolid bmp (x - 1) (y - 1) ||
  !isSolid bmp (x + 1) (y - 1) || !isSolid bmp (x - 1) (y + 1)

/-- The pixel coordinates pushed onto `fillPositions`, in the row-major
scan order of the `for y … for x` loops: every solid pixel. -/
def fillPixels (bmp : Bitmap) : List (Nat × Nat) :=
  (List.range bmp.height).flatMap fun y =>
    (List.range bmp.width).filterMap fun x =>
      if isSolid bmp (x : Nat) (y : Nat) then some (x, y) else none

/-- The pixel coordinates pushed onto `borderPositions`: solid pixels with
some non-solid 8-neighbour. -/
def borderPixels (bmp : Bitmap) : List (Nat × Nat) :=
  (List.range bmp.height).flatMap fun y =>
    (List.range bmp.width).filterMap fun x =>
      if isSolid bmp (x : Nat) (y : Nat) && touchesEmpty bmp x y then some (x, y) else none

/-- `Math.max(1, Math.floor(edgeWeight))` as a repetition count. -/
def borderWeight (edgeWeight : ℚ) : Nat := (max 1 ⌊edgeWeight⌋).toNat

/-- A `vec2f`, idealised over `ℝ`. -/
structure V2 where
  x : ℝ
  y : ℝ

/-- `std.add` on `vec2f`. -/
noncomputable def vadd (a b : V2) : V2 := ⟨a.x + b.x, a.y + b.y⟩

/-- `std.sub` on `vec2f`. -/
noncomputable def vsub (a b : V2) : V2 := ⟨a.x - b.x, a.y - b.y⟩

/-- `std.mul(vec, scalar)`. -/
noncomputable def vscale (v : V2) (c : ℝ) : V2 := ⟨v.x * c, v.y * c⟩

/-- `std.dot`. -/
noncomputable def vdot (a b : V2) : ℝ := a.x * b.x + a.y * b.y

/-- `std.length`. -/
noncomputable def vlen (v : V2) : ℝ := Real.sqrt (vdot v v)

/-- `std.mix` on scalars: `mix(a, b, t) = a * (1 - t) + b * t`. -/
noncomputable def mix (a b t : ℝ) : ℝ := a * (1 - t) + b * t

/-- `nx = ((x + 0.5) / width) * 2 - 1`. -/
noncomputable def ndcX (w x : Nat) : ℝ := ((x : ℝ) + 0.5) / (w : ℝ) * 2 - 1

/-- `ny = ((height - (y + 0.5)) / height) * 2 - 1`. -/
noncomputable def ndcY (h y : Nat) : ℝ := ((h : ℝ) - ((y : ℝ) + 0.5)) / (h : ℝ) * 2 - 1

/-- The `d.vec2f(nx, ny)` pushed for pixel `p` of the bitmap. -/
noncomputable def ndcPoint (bmp : Bitmap) (p : Nat × Nat) : V2 :=
  ⟨ndcX bmp.width p.1, ndcY bmp.height p.2⟩

/-- The `fillPositions` list: the NDC image of the solid pixels, in scan
order (the loop pushes `d.vec2f(nx, ny)` at classification time; mapping
the pixel list yields the same list). -/
noncomputable def fillPositions (bmp : Bitmap) : List V2 :=
  (fillPixels bmp).map (ndcPoint bmp)

/-- The `borderPositions` list. -/
noncomputable def borderPositions (bmp : Bitmap) : List V2 :=
  (borderPixels bmp).map (ndcPoint bmp)

/-- The `positions` array built on success: the fill positions followed by
`borderWeight` copies of the border positions. -/
noncomputable def candidateList (bmp : Bitmap) (edgeWeight : ℚ) : List V2 :=
  fillPositions bmp ++
    (List.replicate (borderWeight edgeWeight) (borderPositions bmp)).flatten

/-- `loadLogoPixelPositions` after the bitmap has been decoded: `ctx2d`
models whether `canvas.getContext("2d")` returned a context. -/
noncomputable def loadLogoPixelPositions (ctx2d : Bool) (bmp : Bitmap)
    (edgeWeight : ℚ) : Except String (List V2) :=
  if ctx2d = false then .error "Logo mask unavailable"
  else if (fillPositions bmp).length = 0 then .error "Logo mask empty"
  else .ok (candidateList bmp edgeWeight)

/-- One iteration of the `generateLogoPoints` loop: three `rng()` calls
(base index, x jitter, y jitter), then clamp the jittered base into
`[-1, 1]²`. -/
noncomputable def genPoint (positions : List V2) (s : Nat) : V2 × Nat :=
  let s1 := rngNext s
  let base := positions.getD (⌊rngOut s1 * (positions.length : ℚ)⌋).toNat ⟨0, 0⟩
  let s2 := rngNext s1
  let dx := ((rngOut s2 : ℚ) : ℝ) - 0.5
  let s3 := rngNext s2
  let dy := ((rngOut s3 : ℚ) : ℝ) - 0.5
  (⟨max (-1) (min 1 (base.x + dx * 0.0025)),
    max (-1) (min 1 (base.y + dy * 0.0025))⟩, s3)

/-- `generateLogoPoints(count, edgeWeight, rng)` given the loaded candidate
`positions`, threading the PRNG state. -/
noncomputable def generateLogoPoints (count : Nat) (positions : List V2)
    (s : Nat) : List V2 × Nat :=
  match count with
  | 0 => ([], s)
  | n + 1 =>
    let ps := genPoint positions s
    let rest := generateLogoPoints n positions ps.2
    (ps.1 :: rest.1, rest.2)

/-- One element of the `restPositions` map in `createParticleSystem`: two
`rng()` calls give a polar offset of angle `rng()*2π` and radius
`rng()*scatter` from the mass point. -/
noncomputable def restPoint (scatter : ℝ) (m : V2) (s : Nat) : V2 × Nat :=
  let s1 := rngNext s
  let angle := ((rngOut s1 : ℚ) : ℝ) * Real.pi * 2
  let s2 := rngNext s1
  let radius := ((rngOut s2 : ℚ) : ℝ) * scatter
  (⟨m.x + Real.cos angle * radius, m.y + Real.sin angle * radius⟩, s2)

/-- The `restPositions = logoMassPoints.map(...)` construction, threading
the PRNG state through the mass points in order. -/
noncomputable def restPositionsFrom (scatter : ℝ) (masses : List V2)
    (s : Nat) : List V2 × Nat :=
  match masses with
  | [] => ([], s)
  | m :: ms =>
    let ps := restPoint scatter m s
    let rest := restPositionsFrom scatter ms ps.2
    (ps.1 :: rest.1, rest.2)

/-- The `Particle` struct: `position`, `velocity`. -/
structure Particle where
  position : V2
  velocity : V2

/-- Default value read for an out-of-range storage-buffer index. -/
noncomputable def pzero : Particle := ⟨⟨0, 0⟩, ⟨0, 0⟩⟩

/-- The `Uniforms` struct. `massCount` is written as the mass-point count
and read back through `d.i32`; the round trip through `f32` is exact for
the counts involved, so it is kept as a `Nat`. -/
structure Uniforms where
  deltaTime : ℝ
  hoverStrength : ℝ
  time : ℝ
  aspectRatio : ℝ
  gravityStrength : ℝ
  massCount : Nat
  wiggleOffsetScale : ℝ
  wiggleForceScale : ℝ
  repelStrength : ℝ

/-- The nearest-mass scan of `simulate`: start from `massPoints[0]`, then
for `i = 1 .. massCount-1` keep the strictly closer point. -/
noncomputable def nearestMass (count : Nat) (masses : List V2) (pos : V2) : V2 :=
  (List.range' 1 (count - 1)).foldl
    (fun best i =>
      let m := masses.getD i ⟨0, 0⟩
      if vdot (vsub m pos) (vsub m pos) < vdot (vsub best pos) (vsub best pos)
      then m else best)
    (masses.getD 0 ⟨0, 0⟩)

/-- `wiggleOffset = vec2f(sin(time*4 + i*0.17), cos(time*3.4 + i*0.11)) *
(wiggleOffsetScale * hover)`. -/
noncomputable def wiggleOffsetOf (u : Uniforms) (i : Nat) : V2 :=
  vscale ⟨Real.sin (u.time * 4.0 + (i : ℝ) * 0.17),
          Real.cos (u.time * 3.4 + (i : ℝ) * 0.11)⟩
    (u.wiggleOffsetScale * u.hoverStrength)

/-- `targetPos = nearest + wiggleOffset`. -/
noncomputable def targetPosOf (u : Uniforms) (masses : List V2) (pos : V2)
    (i : Nat) : V2 :=
  vadd (nearestMass u.massCount masses pos) (wiggleOffsetOf u i)

/-- `targetDir`: normalised direction to the target, or `0` when the
distance is at most `0.001`. -/
noncomputable def targetDirOf (u : Uniforms) (masses : List V2) (pos : V2)
    (i : Nat) : V2 :=
  let toTarget := vsub (targetPosOf u masses pos i) pos
  let targetDist := vlen toTarget
  if targetDist > 0.001 then vscale toTarget (1.0 / targetDist) else ⟨0, 0⟩

/-- `springForce = targetDir * (targetDist * mix(18, 32, hover) * hover)`. -/
noncomputable def springForce (u : Uniforms) (masses : List V2) (pos : V2)
    (i : Nat) : V2 :=
  vscale (targetDirOf u masses pos i)
    (vlen (vsub (targetPosOf u masses pos i) pos) *
      mix 18.0 32.0 u.hoverStrength * u.hoverStrength)

/-- `gravity = targetDir * (gravityStrength * hover)`. -/
noncomputable def gravityForce (u : Uniforms) (masses : List V2) (pos : V2)
    (i : Nat) : V2 :=
  vscale (targetDirOf u masses pos i) (u.gravityStrength * u.hoverStrength)

/-- `dampingForce = vel * (-mix(12, 3, hover))`. -/
noncomputable def dampingForce (u : Uniforms) (vel : V2) : V2 :=
  vscale vel (-(mix 12.0 3.0 u.hoverStrength))

/-- `restForce = (rest - pos) * (6 * (1 - hover))`. -/
noncomputable def restForce (u : Uniforms) (rest pos : V2) : V2 :=
  vscale (vsub rest pos) (6.0 * (1.0 - u.hoverStrength))

/-- `wiggleForce = vec2f(sin(time*5.5 + i*0.23), cos(time*5.2 + i*0.29)) *
(wiggleForceScale * hover)`. -/
noncomputable def wiggleForce (u : Uniforms) (i : Nat) : V2 :=
  vscale ⟨Real.sin (u.time * 5.5 + (i : ℝ) * 0.23),
          Real.cos (u.time * 5.2 + (i : ℝ) * 0.29)⟩
    (u.wiggleForceScale * u.hoverStrength)

/-- One neighbour's contribution in the repulsion loop: zero unless the
squared distance is below `0.05²`, else a push away scaled by
`(0.05 - dist) * repelStrength`. -/
noncomputable def repulsionPush (u : Uniforms) (pIn : List Particle)
    (pos : V2) (i step : Nat) : V2 :=
  let neighborIdx := (i + step) % u.massCount
  let other := (pIn.getD neighborIdx pzero).position
  let diff := vsub pos other
  let distSq := vdot diff diff
  let safeDist := max distSq 1e-5
  let push := vscale (vscale diff (1.0 / Real.sqrt safeDist))
    ((0.05 - Real.sqrt safeDist) * u.repelStrength)
  if distSq < 0.05 * 0.05 then push else ⟨0, 0⟩

/-- The repulsion accumulation over the sampled neighbour strides
`step = 1, 13, 25, 37` (the loop `for step = 1; step <= 37; step += 12`). -/
noncomputable def repulsionForce (u : Uniforms) (pIn : List Particle)
    (pos : V2) (i : Nat) : V2 :=
  [1, 13, 25, 37].foldl (fun acc step => vadd acc (repulsionPush u pIn pos i step))
    ⟨0, 0⟩

/-- `totalForce`, with the exact association of the source's nested
`std.add` calls. -/
noncomputable def totalForce (u : Uniforms) (masses rests : List V2)
    (pIn : List Particle) (i : Nat) : V2 :=
  let pos := (pIn.getD i pzero).position
  let vel := (pIn.getD i pzero).velocity
  let rest := rests.getD i ⟨0, 0⟩
  vadd (restForce u rest pos)
    (vadd (repulsionForce u pIn pos i)
      (vadd (gravityForce u masses pos i)
        (vadd (springForce u masses pos i)
          (vadd (dampingForce u vel) (wiggleForce u i)))))

/-- The `simulate` kernel for one particle index: accumulate forces,
integrate velocity with multiplicative damping `mix(0.8, 0.95, hover)`,
clamp the speed to `mix(0.8, 3.2, hover)`, and advance the position. -/
noncomputable def simulate (u : Uniforms) (masses rests : List V2)
    (pIn : List Particle) (i : Nat) : Particle :=
  let pos := (pIn.getD i pzero).position
  let vel := (pIn.getD i pzero).velocity
  let v1 := vadd (vscale vel (mix 0.8 0.95 u.hoverStrength))
    (vscale (totalForce u masses rests pIn i) u.deltaTime)
  let speed := vlen v1
  let maxSpeed := mix 0.8 3.2 u.hoverStrength
  let v2 := if speed > maxSpeed then vscale v1 (maxSpeed / speed) else v1
  ⟨vadd pos (vscale v2 u.deltaTime), v2⟩

/-- `ParticleSystemOptions`. -/
structure Options where
  particleCount : Nat
  edgeWeight : ℚ
  scatter : ℝ
  seed : Nat
  gravityStrength : ℝ
  wiggleOffsetScale : ℝ
  wiggleForceScale : ℝ
  repelStrength : ℝ

/-- The live state of a particle system: the two ping-pong particle
buffers, the immutable mass/rest buffers, and the loop variables of
`createParticleSystem`'s closure. -/
structure SysState where
  bufA : List Particle
  bufB : List Particle
  masses : List V2
  rests : List V2
  isHovering : Bool
  hoverTransition : ℝ
  time : ℝ
  even : Bool

/-- The buffer initialisation of `createParticleSystem` given the loaded
candidate `positions`: seed the PRNG with `seed >>> 0`, draw the mass
points, scatter the rest points, and write every buffer once.
`logoPoints.slice(0, particleCount)` is `List.take`. -/
noncomputable def initFromPositions (positions : List V2) (o : Options) :
    SysState :=
  let s0 := o.seed % U32
  let gen := generateLogoPoints o.particleCount positions s0
  let logoMassPoints := gen.1.take o.particleCount
  let rests := restPositionsFrom o.scatter logoMassPoints gen.2
  let initialParticles := rests.1.map fun p => Particle.mk p ⟨0, 0⟩
  { bufA := initialParticles, bufB := initialParticles,
    masses := logoMassPoints, rests := rests.1,
    isHovering := false, hoverTransition := 0, time := 0,
    even := false }

/-- `createParticleSystem` up to the first frame: check the WebGPU canvas
context, load the logo candidates, and initialise all buffers. -/
noncomputable def initSystem (webgpu ctx2d : Bool) (bmp : Bitmap)
    (o : Options) : Except String SysState :=
  if webgpu = false then .error "WebGPU not supported"
  else
    match loadLogoPixelPositions ctx2d bmp o.edgeWeight with
    | .error e => .error e
    | .ok positions => .ok (initFromPositions positions o)

/-- The buffer index the compute pass reads, as a function of the flipped
parity: bind group `even ? 0 : 1` has `particlesIn = particleBuffers[idx]`. -/
def computeInIndex (even : Bool) : Nat := if even then 0 else 1

/-- The buffer index the compute pass writes: `particlesOut =
particleBuffers[1 - idx]`. -/
def computeOutIndex (even : Bool) : Nat := 1 - computeInIndex even

/-- The buffer the render pass draws: `particleBuffers[even ? 1 : 0]`. -/
def renderIndex (even : Bool) : Nat := if even then 1 else 0

/-- Buffer selection on the state. -/
def SysState.buf (s : SysState) (i : Nat) : List Particle :=
  if i = 0 then s.bufA else s.bufB

/-- Per-frame external input: the elapsed milliseconds-derived
`(now - lastTime) / 1000` and the canvas dimensions. -/
structure FrameInput where
  elapsed : ℝ
  canvasW : ℝ
  canvasH : ℝ

/-- The clamped time step of a frame: `Math.min((now - lastTime)/1000, 0.05)`. -/
noncomputable def frameDt (inp : FrameInput) : ℝ := min inp.elapsed 0.05

/-- The smoothed hover transition after one frame: move toward the target
at rate `5.0` (rising) or `1.2` (falling). -/
noncomputable def frameHover (s : SysState) (inp : FrameInput) : ℝ :=
  let targetHover : ℝ := if s.isHovering then 1 else 0
  let rate : ℝ := if targetHover > s.hoverTransition then 5.0 else 1.2
  s.hoverTransition + (targetHover - s.hoverTransition) * frameDt inp * rate

/-- The uniforms written by `animate()` this frame. -/
noncomputable def frameUniforms (o : Options) (s : SysState)
    (inp : FrameInput) : Uniforms :=
  { deltaTime := frameDt inp, hoverStrength := frameHover s inp,
    time := s.time + frameDt inp,
    aspectRatio := inp.canvasW / inp.canvasH,
    gravityStrength := o.gravityStrength, massCount := s.masses.length,
    wiggleOffsetScale := o.wiggleOffsetScale,
    wiggleForceScale := o.wiggleForceScale,
    repelStrength := o.repelStrength }

/-- One `animate()` frame: clamp the time step to `0.05`, advance the
hover transition toward its target, rebuild the uniforms, flip the parity,
run the compute dispatch over `particleCount` threads from the buffer the
new parity selects into the other buffer, and leave the rest of the state
untouched (the render pass only reads). -/
noncomputable def animateStep (o : Options) (s : SysState)
    (inp : FrameInput) : SysState :=
  let even2 := !s.even
  let inBuf := s.buf (computeInIndex even2)
  let outBuf := (List.range o.particleCount).map fun i =>
    simulate (frameUniforms o s inp) s.masses s.rests inBuf i
  { bufA := if even2 then s.bufA else outBuf,
    bufB := if even2 then outBuf else s.bufB,
    masses := s.masses, rests := s.rests,
    isHovering := s.isHovering, hoverTransition := frameHover s inp,
    time := s.time + frameDt inp, even := even2 }

/-- The `setHovering` callback of the returned `ParticleSystem`. -/
def setHovering (s : SysState) (h : Bool) : SysState :=
  { s with isHovering := h }

/-- An external event hitting the running system: an animation frame or a
`setHovering` call. -/
inductive Ev where
  | frame (inp : FrameInput)
  | hover (h : Bool)

/-- Run a sequence of events against the system. -/
noncomputable def runEvents (o : Options) (s : SysState) : List Ev → SysState
  | [] => s
  | e :: es =>
    match e with
    | .frame inp => runEvents o (animateStep o s inp) es
    | .hover h => runEvents o (setHovering s h) es

/-! ### Supporting lemmas -/

lemma U32_eq : U32 = 2 ^ 32 := by norm_num [U32]

lemma xor_lt_u32 {a b : Nat} (ha : a < U32) (hb : b < U32) : a ^^^ b < U32 := by
  rw [U32_eq] at *
  exact Nat.bitwise_lt ha hb

/-- Every `rng()` output is nonnegative. -/
lemma rngOut_nonneg (s : Nat) : 0 ≤ rngOut s := by
  unfold rngOut
  positivity

/-- Every `rng()` output is below `1`: the 32-bit result is divided by
`2^32`. -/
lemma rngOut_lt_one (s : Nat) : rngOut s < 1 := by
  unfold rngOut
  rw [div_lt_one (by norm_num [U32])]
  have h1 : ((s ^^^ (s >>> 15)) * (1 ||| s)) % U32 < U32 :=
    Nat.mod_lt _ (by norm_num [U32])
  set t1 := ((s ^^^ (s >>> 15)) * (1 ||| s)) % U32 with ht1
  have h2 : t1 ^^^ ((t1 + ((t1 ^^^ (t1 >>> 7)) * (61 ||| t1)) % U32) % U32) < U32 :=
    xor_lt_u32 h1 (Nat.mod_lt _ (by norm_num [U32]))
  set t2 := t1 ^^^ ((t1 + ((t1 ^^^ (t1 >>> 7)) * (61 ||| t1)) % U32) % U32) with ht2
  have h3 : t2 >>> 14 ≤ t2 := by
    rw [Nat.shiftRight_eq_div_pow]
    exact Nat.div_le_self _ _
  have h4 : t2 ^^^ (t2 >>> 14) < U32 := xor_lt_u32 h2 (lt_of_le_of_lt h3 h2)
  exact_mod_cast Nat.cast_lt.mpr h4

/-- The eight neighbour offsets probed by `touchesEmpty`, in source order. -/
def neighborOffsets : List (Int × Int) :=
  [(1, 0), (-1, 0), (0, 1), (0, -1), (1, 1), (-1, -1), (1, -1), (-1, 1)]

lemma touchesEmpty_iff (bmp : Bitmap) (x y : Int) :
    touchesEmpty bmp x y = true ↔
      ∃ dd ∈ neighborOffsets, isSolid bmp (x + dd.1) (y + dd.2) = false := by
  simp only [touchesEmpty, neighborOffsets, Bool.or_eq_true, Bool.not_eq_true',
    List.mem_cons, List.not_mem_nil, or_false]
  constructor
  · rintro (((((((h | h) | h) | h) | h) | h) | h) | h)
    · exact ⟨(1, 0), by simp, by simpa using h⟩
    · exact ⟨(-1, 0), by simp, by simpa using h⟩
    · exact ⟨(0, 1), by simp, by simpa using h⟩
    · exact ⟨(0, -1), by simp, by simpa using h⟩
    · exact ⟨(1, 1), by simp, by simpa using h⟩
    · exact ⟨(-1, -1), by simp, by simpa using h⟩
    · exact ⟨(1, -1), by simp, by simpa using h⟩
    · exact ⟨(-1, 1), by simp, by simpa using h⟩
  · rintro ⟨dd, hdd, h⟩
    rcases hdd with h1 | h1 | h1 | h1 | h1 | h1 | h1 | h1 <;>
      subst h1 <;> norm_num at h <;> simp only [sub_eq_add_neg] <;> tauto

lemma mem_fillPixels_iff (bmp : Bitmap) (x y : Nat) :
    (x, y) ∈ fillPixels bmp ↔
      x < bmp.width ∧ y < bmp.height ∧ isSolid bmp x y = true := by
  simp only [fillPixels, List.mem_flatMap, List.mem_filterMap, List.mem_range,
    Option.ite_none_right_eq_some, Option.some.injEq, Prod.mk.injEq]
  constructor
  · rintro ⟨y', hy', x', hx', hsolid, hx, hy⟩
    subst hx; subst hy
    exact ⟨hx', hy', hsolid⟩
  · rintro ⟨hx, hy, hsolid⟩
    exact ⟨y, hy, x, hx, hsolid, rfl, rfl⟩

lemma mem_borderPixels_iff (bmp : Bitmap) (x y : Nat) :
    (x, y) ∈ borderPixels bmp ↔
      x < bmp.width ∧ y < bmp.height ∧ isSolid bmp x y = true ∧
        touchesEmpty bmp x y = true := by
  simp only [borderPixels, List.mem_flatMap, List.mem_filterMap, List.mem_range,
    Option.ite_none_right_eq_some, Option.some.injEq, Prod.mk.injEq, Bool.and_eq_true]
  constructor
  · rintro ⟨y', hy', x', hx', ⟨hsolid, htouch⟩, hx, hy⟩
    subst hx; subst hy
    exact ⟨hx', hy', hsolid, htouch⟩
  · rintro ⟨hx, hy, hsolid, htouch⟩
    exact ⟨y, hy, x, hx, ⟨hsolid, htouch⟩, rfl, rfl⟩

lemma borderPixels_subset (bmp : Bitmap) :
    ∀ p ∈ borderPixels bmp, p ∈ fillPixels bmp := by
  rintro ⟨x, y⟩ hp
  rw [mem_borderPixels_iff] at hp
  rw [mem_fillPixels_iff]
  exact ⟨hp.1, hp.2.1, hp.2.2.1⟩

lemma isSolid_outside (bmp : Bitmap) (px py : Int)
    (h : px < 0 ∨ py < 0 ∨ (bmp.width : Int) ≤ px ∨ (bmp.height : Int) ≤ py) :
    isSolid bmp px py = false := by
  unfold isSolid
  rw [if_pos]
  omega

lemma ndcX_bounds {w x : Nat} (h : x < w) : -1 < ndcX w x ∧ ndcX w x < 1 := by
  have hw : (0 : ℝ) < w := by exact_mod_cast Nat.pos_of_ne_zero (by omega)
  have hx : (x : ℝ) + 1 ≤ w := by exact_mod_cast h
  unfold ndcX
  constructor
  · have : 0 < ((x : ℝ) + 0.5) / w := by positivity
    linarith
  · have : ((x : ℝ) + 0.5) / w < 1 := by
      rw [div_lt_one hw]; linarith
    linarith

lemma ndcY_bounds {h y : Nat} (hy : y < h) : -1 < ndcY h y ∧ ndcY h y < 1 := by
  have hh : (0 : ℝ) < h := by exact_mod_cast Nat.pos_of_ne_zero (by omega)
  have hyr : (y : ℝ) + 1 ≤ h := by exact_mod_cast hy
  have hy0 : (0 : ℝ) ≤ y := Nat.cast_nonneg y
  unfold ndcY
  constructor
  · have h1 : 0 < ((h : ℝ) - ((y : ℝ) + 0.5)) / h := by
      apply div_pos _ hh; linarith
    linarith
  · have h1 : ((h : ℝ) - ((y : ℝ) + 0.5)) / h < 1 := by
      rw [div_lt_one hh]; linarith
    linarith

lemma generateLogoPoints_length (count : Nat) (positions : List V2) (s : Nat) :
    (generateLogoPoints count positions s).1.length = count := by
  induction count generalizing s with
  | zero => rfl
  | succ n ih => simp [generateLogoPoints, ih]

lemma generateLogoPoints_mem_clamped (count : Nat) (positions : List V2)
    (s : Nat) :
    ∀ p ∈ (generateLogoPoints count positions s).1,
      -1 ≤ p.x ∧ p.x ≤ 1 ∧ -1 ≤ p.y ∧ p.y ≤ 1 := by
  induction count generalizing s with
  | zero => intro p hp; simp [generateLogoPoints] at hp
  | succ n ih =>
    intro p hp
    simp only [generateLogoPoints, List.mem_cons] at hp
    rcases hp with hp | hp
    · subst hp
      refine ⟨le_max_left _ _, max_le (by norm_num) (min_le_left _ _),
        le_max_left _ _, max_le (by norm_num) (min_le_left _ _)⟩
    · exact ih _ p hp

lemma restPositionsFrom_length (scatter : ℝ) (masses : List V2) (s : Nat) :
    (restPositionsFrom scatter masses s).1.length = masses.length := by
  induction masses generalizing s with
  | nil => rfl
  | cons m ms ih => simp [restPositionsFrom, ih]

/-- Each produced rest point is the `restPoint` of the matching mass point
at some intermediate PRNG state. -/
lemma restPositionsFrom_getD (scatter : ℝ) (masses : List V2) (s i : Nat)
    (hi : i < masses.length) :
    ∃ s2, (restPositionsFrom scatter masses s).1.getD i ⟨0, 0⟩ =
      (restPoint scatter (masses.getD i ⟨0, 0⟩) s2).1 := by
  induction masses generalizing s i with
  | nil => simp at hi
  | cons m ms ih =>
    cases i with
    | zero => exact ⟨s, rfl⟩
    | succ j =>
      simp only [List.length_cons, Nat.succ_lt_succ_iff] at hi
      exact ih _ j hi

lemma vlen_nonneg (v : V2) : 0 ≤ vlen v := Real.sqrt_nonneg _

lemma vlen_vscale (v : V2) (c : ℝ) : vlen (vscale v c) = |c| * vlen v := by
  unfold vlen vscale vdot
  rw [show v.x * c * (v.x * c) + v.y * c * (v.y * c) =
    c ^ 2 * (v.x * v.x + v.y * v.y) by ring]
  rw [Real.sqrt_mul (sq_nonneg c), Real.sqrt_sq_eq_abs]

/-- The polar offset of a rest point has Euclidean size `|radius|`. -/
lemma vlen_polar (a r : ℝ) : vlen ⟨Real.cos a * r, Real.sin a * r⟩ = |r| := by
  unfold vlen vdot
  rw [show Real.cos a * r * (Real.cos a * r) + Real.sin a * r * (Real.sin a * r) =
    r ^ 2 * (Real.sin a ^ 2 + Real.cos a ^ 2) by ring]
  rw [Real.sin_sq_add_cos_sq, mul_one, Real.sqrt_sq_eq_abs]

/-- A rest point sits within `scatter` of its mass point, and is exactly a
polar offset of radius `rng() * scatter`. -/
lemma restPoint_dist (scatter : ℝ) (hs : 0 ≤ scatter) (m : V2) (s : Nat) :
    ∃ angle radius, 0 ≤ radius ∧ radius ≤ scatter ∧
      (restPoint scatter m s).1 =
        vadd m (vscale ⟨Real.cos angle, Real.sin angle⟩ radius) ∧
      vlen (vsub (restPoint scatter m s).1 m) ≤ scatter := by
  unfold restPoint
  set a := ((rngOut (rngNext s) : ℚ) : ℝ) * Real.pi * 2 with ha
  set q := ((rngOut (rngNext (rngNext s)) : ℚ) : ℝ) with hq
  have hq0 : 0 ≤ q := by
    rw [hq]; exact_mod_cast rngOut_nonneg (rngNext (rngNext s))
  have hq1 : q ≤ 1 := by
    rw [hq]
    have := rngOut_lt_one (rngNext (rngNext s))
    exact_mod_cast le_of_lt this
  refine ⟨a, q * scatter, mul_nonneg hq0 hs, ?_, ?_, ?_⟩
  · calc q * scatter ≤ 1 * scatter := by
          exact mul_le_mul_of_nonneg_right hq1 hs
      _ = scatter := one_mul scatter
  · simp [vadd, vscale]
  · have hsub : vsub ⟨m.x + Real.cos a * (q * scatter),
        m.y + Real.sin a * (q * scatter)⟩ m =
        ⟨Real.cos a * (q * scatter), Real.sin a * (q * scatter)⟩ := by
      simp [vsub]
    rw [hsub, vlen_polar, abs_of_nonneg (mul_nonneg hq0 hs)]
    calc q * scatter ≤ 1 * scatter := mul_le_mul_of_nonneg_right hq1 hs
      _ = scatter := one_mul scatter

lemma animateStep_masses (o : Options) (s : SysState) (inp : FrameInput) :
    (animateStep o s inp).masses = s.masses := rfl

lemma animateStep_rests (o : Options) (s : SysState) (inp : FrameInput) :
    (animateStep o s inp).rests = s.rests := rfl

lemma runEvents_masses (o : Options) (s : SysState) (evs : List Ev) :
    (runEvents o s evs).masses = s.masses := by
  induction evs generalizing s with
  | nil => rfl
  | cons e es ih =>
    cases e with
    | frame inp => rw [runEvents, ih]; rfl
    | hover h => rw [runEvents, ih]; rfl

lemma runEvents_rests (o : Options) (s : SysState) (evs : List Ev) :
    (runEvents o s evs).rests = s.rests := by
  induction evs generalizing s with
  | nil => rfl
  | cons e es ih =>
    cases e with
    | frame inp => rw [runEvents, ih]; rfl
    | hover h => rw [runEvents, ih]; rfl

lemma animateStep_bufA_length (o : Options) (s : SysState) (inp : FrameInput)
    (h : s.bufA.length = o.particleCount) :
    (animateStep o s inp).bufA.length = o.particleCount := by
  unfold animateStep
  by_cases he : s.even <;> simp [he, h]

lemma animateStep_bufB_length (o : Options) (s : SysState) (inp : FrameInput)
    (h : s.bufB.length = o.particleCount) :
    (animateStep o s inp).bufB.length = o.particleCount := by
  unfold animateStep
  by_cases he : s.even <;> simp [he, h]

lemma runEvents_buf_lengths (o : Options) (s : SysState) (evs : List Ev)
    (ha : s.bufA.length = o.particleCount)
    (hb : s.bufB.length = o.particleCount) :
    (runEvents o s evs).bufA.length = o.particleCount ∧
      (runEvents o s evs).bufB.length = o.particleCount := by
  induction evs generalizing s with
  | nil => exact ⟨ha, hb⟩
  | cons e es ih =>
    cases e with
    | frame inp =>
      exact ih (animateStep o s inp)
        (animateStep_bufA_length o s inp ha) (animateStep_bufB_length o s inp hb)
    | hover h => exact ih (setHovering s h) ha hb

lemma fillPositions_length (bmp : Bitmap) :
    (fillPositions bmp).length = (fillPixels bmp).length := by
  simp [fillPositions]

/-- Case analysis of `loadLogoPixelPositions`. -/
lemma load_cases (ctx2d : Bool) (bmp : Bitmap) (ew : ℚ) :
    (ctx2d = false ∧
      loadLogoPixelPositions ctx2d bmp ew = .error "Logo mask unavailable") ∨
    (ctx2d = true ∧ fillPixels bmp = [] ∧
      loadLogoPixelPositions ctx2d bmp ew = .error "Logo mask empty") ∨
    (ctx2d = true ∧ fillPixels bmp ≠ [] ∧
      loadLogoPixelPositions ctx2d bmp ew = .ok (candidateList bmp ew)) := by
  cases ctx2d with
  | false => exact .inl ⟨rfl, rfl⟩
  | true =>
    by_cases hf : fillPixels bmp = []
    · refine .inr (.inl ⟨rfl, hf, ?_⟩)
      simp [loadLogoPixelPositions, fillPositions_length, hf]
    · refine .inr (.inr ⟨rfl, hf, ?_⟩)
      have : (fillPixels bmp).length ≠ 0 := by
        simpa [List.length_eq_zero] using hf
      simp [loadLogoPixelPositions, fillPositions_length, this]

/-! ### Concrete inputs used by the witnesses -/

/-- A 1×1 bitmap with a single opaque pixel. -/
def bmp1 : Bitmap := ⟨1, 1, [0, 0, 0, 255]⟩

/-- A small concrete options record. -/
noncomputable def o1 : Options := ⟨1, 1, 1, 0, 0, 0, 0, 0⟩

/-- A small concrete system state. -/
noncomputable def st1 : SysState := ⟨[], [], [], [], false, 0, 0, false⟩

/-- A concrete frame input. -/
noncomputable def inp1 : FrameInput := ⟨0.016, 800, 600⟩

/-! ### Claims -/

/-- Claim C4: the mass-point and rest-point buffers are never modified by
the running system: any sequence of `animate` frames and `setHovering`
calls leaves `masses` and `rests` exactly as they were written at
creation. -/
theorem mass_rest_buffers_immutable (o : Options) (s : SysState)
    (evs : List Ev) :
    (runEvents o s evs).masses = s.masses ∧
      (runEvents o s evs).rests = s.rests :=
  ⟨runEvents_masses o s evs, runEvents_rests o s evs⟩

theorem mass_rest_buffers_immutable_witness :
    (runEvents o1 st1 [Ev.hover true, Ev.frame inp1]).masses = st1.masses ∧
      (runEvents o1 st1 [Ev.hover true, Ev.frame inp1]).rests = st1.rests :=
  mass_rest_buffers_immutable o1 st1 [Ev.hover true, Ev.frame inp1]

/-- Claim C6: each frame flips the ping-pong parity; the compute pass reads
the buffer selected by the new parity and writes the other one, the render
pass draws the buffer the compute pass just wrote, and the read and write
buffers of a frame are never the same. -/
theorem ping_pong_parity (o : Options) (s : SysState) (inp : FrameInput) :
    (animateStep o s inp).even = !s.even ∧
    computeInIndex (!s.even) ≠ computeOutIndex (!s.even) ∧
    renderIndex (!s.even) = computeOutIndex (!s.even) ∧
    (∃ u, (animateStep o s inp).buf (computeOutIndex (!s.even)) =
      (List.range o.particleCount).map fun i =>
        simulate u s.masses s.rests (s.buf (computeInIndex (!s.even))) i) ∧
    (animateStep o s inp).buf (computeInIndex (!s.even)) =
      s.buf (computeInIndex (!s.even)) := by
  refine ⟨rfl, ?_, ?_, ?_, ?_⟩
  · cases s.even <;> decide
  · cases s.even <;> decide
  · cases hse : s.even <;>
      · refine ⟨frameUniforms o s inp, ?_⟩
        simp [animateStep, hse, SysState.buf, computeInIndex, computeOutIndex]
  · cases hse : s.even <;>
      simp [animateStep, hse, SysState.buf, computeInIndex, computeOutIndex]

theorem ping_pong_parity_witness :
    (animateStep o1 st1 inp1).even = !st1.even ∧
    computeInIndex (!st1.even) ≠ computeOutIndex (!st1.even) ∧
    renderIndex (!st1.even) = computeOutIndex (!st1.even) ∧
    (∃ u, (animateStep o1 st1 inp1).buf (computeOutIndex (!st1.even)) =
      (List.range o1.particleCount).map fun i =>
        simulate u st1.masses st1.rests (st1.buf (computeInIndex (!st1.even))) i) ∧
    (animateStep o1 st1 inp1).buf (computeInIndex (!st1.even)) =
      st1.buf (computeInIndex (!st1.even)) :=
  ping_pong_parity o1 st1 inp1

/-- Claim C5: `generateLogoPoints` returns exactly `particleCount` points;
the mass, rest and both particle buffers of a freshly initialised system
all have `particleCount` elements; this is preserved by every frame and
hover event; and every successful `initSystem` state is an
`initFromPositions` state. -/
theorem buffer_lengths (o : Options) (positions : List V2) (evs : List Ev) :
    (∀ s, (generateLogoPoints o.particleCount positions s).1.length =
      o.particleCount) ∧
    (initFromPositions positions o).masses.length = o.particleCount ∧
    (initFromPositions positions o).rests.length = o.particleCount ∧
    (initFromPositions positions o).bufA.length = o.particleCount ∧
    (initFromPositions positions o).bufB.length = o.particleCount ∧
    (runEvents o (initFromPositions positions o) evs).bufA.length =
      o.particleCount ∧
    (runEvents o (initFromPositions positions o) evs).bufB.length =
      o.particleCount ∧
    (runEvents o (initFromPositions positions o) evs).masses.length =
      o.particleCount ∧
    (runEvents o (initFromPositions positions o) evs).rests.length =
      o.particleCount ∧
    (∀ webgpu ctx2d bmp st, initSystem webgpu ctx2d bmp o = .ok st →
      st = initFromPositions (candidateList bmp o.edgeWeight) o) := by
  have hm : (initFromPositions positions o).masses.length = o.particleCount := by
    simp [initFromPositions, generateLogoPoints_length, List.length_take]
  have hr : (initFromPositions positions o).rests.length = o.particleCount := by
    simp [initFromPositions, restPositionsFrom_length,
      generateLogoPoints_length, List.length_take]
  have ha : (initFromPositions positions o).bufA.length = o.particleCount := by
    simp [initFromPositions, restPositionsFrom_length,
      generateLogoPoints_length, List.length_take]
  have hb : (initFromPositions positions o).bufB.length = o.particleCount := ha
  have hrun := runEvents_buf_lengths o (initFromPositions positions o) evs ha hb
  refine ⟨fun s => generateLogoPoints_length o.particleCount positions s,
    hm, hr, ha, hb, hrun.1, hrun.2, ?_, ?_, ?_⟩
  · rw [runEvents_masses]; exact hm
  · rw [runEvents_rests]; exact hr
  · intro webgpu ctx2d bmp st hok
    cases webgpu with
    | false => simp [initSystem] at hok
    | true =>
      rcases load_cases ctx2d bmp o.edgeWeight with ⟨_, hl⟩ | ⟨_, _, hl⟩ | ⟨_, _, hl⟩ <;>
        simp [initSystem, hl] at hok
      exact hok.symm

theorem buffer_lengths_witness :
    (∀ s, (generateLogoPoints o1.particleCount ([] : List V2) s).1.length =
      o1.particleCount) ∧
    (initFromPositions [] o1).masses.length = o1.particleCount ∧
    (initFromPositions [] o1).rests.length = o1.particleCount ∧
    (initFromPositions [] o1).bufA.length = o1.particleCount ∧
    (initFromPositions [] o1).bufB.length = o1.particleCount ∧
    (runEvents o1 (initFromPositions [] o1) []).bufA.length =
      o1.particleCount ∧
    (runEvents o1 (initFromPositions [] o1) []).bufB.length =
      o1.particleCount ∧
    (runEvents o1 (initFromPositions [] o1) []).masses.length =
      o1.particleCount ∧
    (runEvents o1 (initFromPositions [] o1) []).rests.length =
      o1.particleCount ∧
    (∀ webgpu ctx2d bmp st, initSystem webgpu ctx2d bmp o1 = .ok st →
      st = initFromPositions (candidateList bmp o1.edgeWeight) o1) :=
  buffer_lengths o1 [] []

/-- Claim C10: initialisation is a deterministic function of the options
and the decoded bitmap — two runs agree exactly — and the initial particle
buffers hold each particle at its rest position with zero velocity, the
mass points being the seeded draw from the candidate list and the rest
points the seeded scatter of the mass points. -/
theorem deterministic_init (webgpu ctx2d : Bool) (bmp : Bitmap)
    (o : Options) (positions : List V2) :
    initSystem webgpu ctx2d bmp o = initSystem webgpu ctx2d bmp o ∧
    (initFromPositions positions o).masses =
      (generateLogoPoints o.particleCount positions (o.seed % U32)).1.take
        o.particleCount ∧
    (initFromPositions positions o).rests =
      (restPositionsFrom o.scatter (initFromPositions positions o).masses
        (generateLogoPoints o.particleCount positions (o.seed % U32)).2).1 ∧
    (initFromPositions positions o).bufA =
      (initFromPositions positions o).rests.map
        (fun p => Particle.mk p ⟨0, 0⟩) ∧
    (initFromPositions positions o).bufB = (initFromPositions positions o).bufA :=
  ⟨rfl, rfl, rfl, rfl, rfl⟩

theorem deterministic_init_witness :
    initSystem true true bmp1 o1 = initSystem true true bmp1 o1 ∧
    (initFromPositions [] o1).masses =
      (generateLogoPoints o1.particleCount [] (o1.seed % U32)).1.take
        o1.particleCount ∧
    (initFromPositions [] o1).rests =
      (restPositionsFrom o1.scatter (initFromPositions [] o1).masses
        (generateLogoPoints o1.particleCount [] (o1.seed % U32)).2).1 ∧
    (initFromPositions [] o1).bufA =
      (initFromPositions [] o1).rests.map
        (fun p => Particle.mk p ⟨0, 0⟩) ∧
    (initFromPositions [] o1).bufB = (initFromPositions [] o1).bufA :=
  deterministic_init true true bmp1 o1 []

/-- Speed clamp: if a vector is longer than `m > 0`, rescaling it by
`m / length` lands exactly on `m`; otherwise it is already within `m`. -/
lemma vlen_clamp (v : V2) (m : ℝ) (hm : 0 < m) :
    vlen (if vlen v > m then vscale v (m / vlen v) else v) ≤ m := by
  by_cases h : vlen v > m
  · rw [if_pos h, vlen_vscale]
    have hv : 0 < vlen v := lt_trans hm h
    rw [abs_of_nonneg (le_of_lt (div_pos hm hv)), div_mul_cancel₀ m (ne_of_gt hv)]
  · rw [if_neg h]
    exact le_of_not_lt h

/-- Claim C7: every rest point is its mass point plus a polar offset
`(cos angle, sin angle) * radius` with `0 ≤ radius ≤ scatter`, so it lies
within Euclidean distance `scatter` of the mass point. -/
theorem rest_point_scatter_bound (scatter : ℝ) (masses : List V2) (s i : Nat)
    (hs : 0 ≤ scatter) (hi : i < masses.length) :
    ∃ angle radius, 0 ≤ radius ∧ radius ≤ scatter ∧
      (restPositionsFrom scatter masses s).1.getD i ⟨0, 0⟩ =
        vadd (masses.getD i ⟨0, 0⟩)
          (vscale ⟨Real.cos angle, Real.sin angle⟩ radius) ∧
      vlen (vsub ((restPositionsFrom scatter masses s).1.getD i ⟨0, 0⟩)
        (masses.getD i ⟨0, 0⟩)) ≤ scatter := by
  obtain ⟨s2, hs2⟩ := restPositionsFrom_getD scatter masses s i hi
  obtain ⟨a, r, hr0, hrs, heq, hdist⟩ :=
    restPoint_dist scatter hs (masses.getD i ⟨0, 0⟩) s2
  exact ⟨a, r, hr0, hrs, by rw [hs2, heq], by rw [hs2]; exact hdist⟩

/-- A one-element mass list for the witnesses. -/
noncomputable def m1 : List V2 := [⟨0, 0⟩]

theorem rest_point_scatter_bound_witness :
    (0 : ℝ) ≤ 1 ∧ 0 < m1.length ∧
    ∃ angle radius, 0 ≤ radius ∧ radius ≤ (1 : ℝ) ∧
      (restPositionsFrom 1 m1 0).1.getD 0 ⟨0, 0⟩ =
        vadd (m1.getD 0 ⟨0, 0⟩)
          (vscale ⟨Real.cos angle, Real.sin angle⟩ radius) ∧
      vlen (vsub ((restPositionsFrom 1 m1 0).1.getD 0 ⟨0, 0⟩)
        (m1.getD 0 ⟨0, 0⟩)) ≤ 1 :=
  ⟨by norm_num, by norm_num [m1],
    rest_point_scatter_bound 1 m1 0 0 (by norm_num) (by norm_num [m1])⟩

/-- Claim C9: for hover strengths in `[0, 1]` the velocity written by one
simulation step has Euclidean norm at most `mix(0.8, 3.2, hover)`, which
itself is at most `3.2`. -/
theorem speed_limit (u : Uniforms) (masses rests : List V2)
    (pIn : List Particle) (i : Nat)
    (h0 : 0 ≤ u.hoverStrength) (h1 : u.hoverStrength ≤ 1) :
    vlen (simulate u masses rests pIn i).velocity ≤
      mix 0.8 3.2 u.hoverStrength ∧
    mix 0.8 3.2 u.hoverStrength ≤ 3.2 := by
  have hmax : (0 : ℝ) < mix 0.8 3.2 u.hoverStrength := by
    unfold mix; nlinarith
  refine ⟨?_, by unfold mix; nlinarith⟩
  exact vlen_clamp _ _ hmax

/-- A concrete uniforms record with zero hover. -/
noncomputable def u1 : Uniforms := ⟨0.016, 0, 0, 1, 0, 0, 0, 0, 0⟩

theorem speed_limit_witness :
    (0 : ℝ) ≤ u1.hoverStrength ∧ u1.hoverStrength ≤ 1 ∧
    (vlen (simulate u1 [] [] [] 0).velocity ≤ mix 0.8 3.2 u1.hoverStrength ∧
      mix 0.8 3.2 u1.hoverStrength ≤ 3.2) :=
  ⟨by norm_num [u1], by norm_num [u1],
    speed_limit u1 [] [] [] 0 (by norm_num [u1]) (by norm_num [u1])⟩

/-- Claim C8: initialisation succeeds exactly when WebGPU is available,
the 2d mask context is available and the decoded logo has a solid pixel;
and every initialisation error is one of the two terminal failure modes
(WebGPU unavailable; logo mask unavailable or empty). -/
theorem init_error_modes (webgpu ctx2d : Bool) (bmp : Bitmap) (o : Options) :
    ((∃ st, initSystem webgpu ctx2d bmp o = .ok st) ↔
      (webgpu = true ∧ ctx2d = true ∧ fillPixels bmp ≠ [])) ∧
    (∀ e, initSystem webgpu ctx2d bmp o = .error e →
      (webgpu = false ∧ e = "WebGPU not supported") ∨
      (ctx2d = false ∧ e = "Logo mask unavailable") ∨
      (fillPixels bmp = [] ∧ e = "Logo mask empty")) := by
  cases webgpu with
  | false =>
    constructor
    · simp [initSystem]
    · intro e he
      simp [initSystem] at he
      exact .inl ⟨rfl, he.symm⟩
  | true =>
    rcases load_cases ctx2d bmp o.edgeWeight with ⟨hc, hl⟩ | ⟨hc, hf, hl⟩ |
      ⟨hc, hf, hl⟩
    · subst hc
      constructor
      · simp [initSystem, hl]
      · intro e he
        simp [initSystem, hl] at he
        exact .inr (.inl ⟨rfl, he.symm⟩)
    · subst hc
      constructor
      · simp [initSystem, hl, hf]
      · intro e he
        simp [initSystem, hl] at he
        exact .inr (.inr ⟨hf, he.symm⟩)
    · subst hc
      constructor
      · simp [initSystem, hl, hf]
      · intro e he
        simp [initSystem, hl] at he

theorem init_error_modes_witness :
    ((∃ st, initSystem true true bmp1 o1 = .ok st) ↔
      (true = true ∧ true = true ∧ fillPixels bmp1 ≠ [])) ∧
    (∀ e, initSystem true true bmp1 o1 = .error e →
      (true = false ∧ e = "WebGPU not supported") ∨
      (true = false ∧ e = "Logo mask unavailable") ∨
      (fillPixels bmp1 = [] ∧ e = "Logo mask empty")) :=
  init_error_modes true true bmp1 o1

/-- Claim C2: the sampler classifies exactly the solid (opaque, in-bounds)
pixels; a classified pixel is a border pixel exactly when one of its eight
neighbours (out-of-image positions counting as empty) is not solid; and
every border pixel is also a fill pixel. -/
theorem pixel_classification (bmp : Bitmap) (x y : Nat) :
    ((x, y) ∈ fillPixels bmp ↔
      x < bmp.width ∧ y < bmp.height ∧ isSolid bmp x y = true) ∧
    ((x, y) ∈ borderPixels bmp ↔
      (x, y) ∈ fillPixels bmp ∧
        ∃ dd ∈ neighborOffsets,
          isSolid bmp ((x : Int) + dd.1) ((y : Int) + dd.2) = false) ∧
    (∀ px py : Int,
      (px < 0 ∨ py < 0 ∨ (bmp.width : Int) ≤ px ∨ (bmp.height : Int) ≤ py) →
        isSolid bmp px py = false) ∧
    (∀ p ∈ borderPixels bmp, p ∈ fillPixels bmp) := by
  refine ⟨mem_fillPixels_iff bmp x y, ?_, isSolid_outside bmp,
    borderPixels_subset bmp⟩
  rw [mem_borderPixels_iff, mem_fillPixels_iff]
  constructor
  · rintro ⟨hx, hy, hs, ht⟩
    exact ⟨⟨hx, hy, hs⟩, (touchesEmpty_iff bmp x y).1 ht⟩
  · rintro ⟨⟨hx, hy, hs⟩, ht⟩
    exact ⟨hx, hy, hs, (touchesEmpty_iff bmp x y).2 ht⟩

theorem pixel_classification_witness :
    (((0 : Nat), (0 : Nat)) ∈ fillPixels bmp1 ↔
      0 < bmp1.width ∧ 0 < bmp1.height ∧ isSolid bmp1 0 0 = true) ∧
    (((0 : Nat), (0 : Nat)) ∈ borderPixels bmp1 ↔
      ((0 : Nat), (0 : Nat)) ∈ fillPixels bmp1 ∧
        ∃ dd ∈ neighborOffsets,
          isSolid bmp1 (((0 : Nat) : Int) + dd.1) (((0 : Nat) : Int) + dd.2) =
            false) ∧
    (∀ px py : Int,
      (px < 0 ∨ py < 0 ∨ (bmp1.width : Int) ≤ px ∨ (bmp1.height : Int) ≤ py) →
        isSolid bmp1 px py = false) ∧
    (∀ p ∈ borderPixels bmp1, p ∈ fillPixels bmp1) :=
  pixel_classification bmp1 0 0

/-- Claim C3: on a usable mask the loader returns every fill position once
followed by `max(1, floor(edgeWeight))` copies of the border positions;
every candidate point is a solid pixel centre mapped to NDC and lies
strictly inside `[-1, 1]²`; and every jittered point later drawn from the
candidates by `generateLogoPoints` is clamped back into `[-1, 1]²`. -/
theorem candidate_points (ctx2d : Bool) (bmp : Bitmap) (ew : ℚ) (n s : Nat)
    (hc : ctx2d = true) (hne : fillPixels bmp ≠ []) :
    loadLogoPixelPositions ctx2d bmp ew = .ok (candidateList bmp ew) ∧
    candidateList bmp ew =
      fillPositions bmp ++
        (List.replicate ((max 1 ⌊ew⌋).toNat) (borderPositions bmp)).flatten ∧
    (∀ p ∈ candidateList bmp ew, ∃ q ∈ fillPixels bmp,
      q.1 < bmp.width ∧ q.2 < bmp.height ∧ p = ndcPoint bmp q ∧
      -1 < p.x ∧ p.x < 1 ∧ -1 < p.y ∧ p.y < 1) ∧
    (∀ p ∈ (generateLogoPoints n (candidateList bmp ew) s).1,
      -1 ≤ p.x ∧ p.x ≤ 1 ∧ -1 ≤ p.y ∧ p.y ≤ 1) := by
  subst hc
  refine ⟨?_, rfl, ?_, generateLogoPoints_mem_clamped n _ s⟩
  · rcases load_cases true bmp ew with ⟨h, _⟩ | ⟨_, hf, _⟩ | ⟨_, _, hl⟩
    · exact absurd h (by simp)
    · exact absurd hf hne
    · exact hl
  · intro p hp
    rw [candidateList, List.mem_append] at hp
    have hq : ∃ q ∈ fillPixels bmp, p = ndcPoint bmp q := by
      rcases hp with hp | hp
      · rw [fillPositions, List.mem_map] at hp
        obtain ⟨q, hq, hpq⟩ := hp
        exact ⟨q, hq, hpq.symm⟩
      · rw [List.mem_flatten] at hp
        obtain ⟨l, hl, hpl⟩ := hp
        rw [List.mem_replicate] at hl
        rw [hl.2, borderPositions, List.mem_map] at hpl
        obtain ⟨q, hq, hpq⟩ := hpl
        exact ⟨q, borderPixels_subset bmp q hq, hpq.symm⟩
    obtain ⟨⟨qx, qy⟩, hq, rfl⟩ := hq
    rw [mem_fillPixels_iff] at hq
    obtain ⟨hqx, hqy, hqs⟩ := hq
    have hx := ndcX_bounds hqx
    have hy := ndcY_bounds hqy
    refine ⟨(qx, qy), (mem_fillPixels_iff bmp qx qy).2 ⟨hqx, hqy, hqs⟩,
      hqx, hqy, rfl, ?_, ?_, ?_, ?_⟩ <;>
      simp [ndcPoint]
    · exact hx.1
    · exact hx.2
    · exact hy.1
    · exact hy.2

theorem candidate_points_witness :
    true = true ∧ fillPixels bmp1 ≠ [] ∧
    (loadLogoPixelPositions true bmp1 1 = .ok (candidateList bmp1 1) ∧
    candidateList bmp1 1 =
      fillPositions bmp1 ++
        (List.replicate ((max 1 ⌊(1 : ℚ)⌋).toNat) (borderPositions bmp1)).flatten ∧
    (∀ p ∈ candidateList bmp1 1, ∃ q ∈ fillPixels bmp1,
      q.1 < bmp1.width ∧ q.2 < bmp1.height ∧ p = ndcPoint bmp1 q ∧
      -1 < p.x ∧ p.x < 1 ∧ -1 < p.y ∧ p.y < 1) ∧
    (∀ p ∈ (generateLogoPoints 1 (candidateList bmp1 1) 0).1,
      -1 ≤ p.x ∧ p.x ≤ 1 ∧ -1 ≤ p.y ∧ p.y ≤ 1)) :=
  ⟨rfl, by decide, candidate_points true bmp1 1 1 0 rfl (by decide)⟩

/-- Modelled from the spec for claim C1: the sum of only the five force
components the spec names (spring toward the wiggle-offset target, velocity
damping, neighbour repulsion, scatter relaxation toward the rest point,
periodic wiggle), with no other additive term. -/
noncomputable def specFiveForceSum (u : Uniforms) (masses rests : List V2)
    (pIn : List Particle) (i : Nat) : V2 :=
  let pos := (pIn.getD i pzero).position
  let vel := (pIn.getD i pzero).velocity
  let rest := rests.getD i ⟨0, 0⟩
  vadd (springForce u masses pos i)
    (vadd (dampingForce u vel)
      (vadd (repulsionForce u pIn pos i)
        (vadd (restForce u rest pos) (wiggleForce u i))))

/-- Concrete uniforms for the C1 evaluation: full hover, unit gravity
strength, one mass point, all other tunables zero. -/
noncomputable def cu : Uniforms := ⟨0, 1, 0, 1, 1, 1, 0, 0, 0⟩

/-- One mass point at `(1, 0)`. -/
noncomputable def cms : List V2 := [⟨1, 0⟩]

/-- One rest point at the origin. -/
noncomputable def crs : List V2 := [⟨0, 0⟩]

/-- One particle at the origin, at rest. -/
noncomputable def cps : List Particle := [⟨⟨0, 0⟩, ⟨0, 0⟩⟩]

lemma vlen_e1 : vlen ⟨1, 0⟩ = 1 := by
  show Real.sqrt ((1 : ℝ) * 1 + 0 * 0) = 1
  rw [show (1 : ℝ) * 1 + 0 * 0 = 1 by norm_num, Real.sqrt_one]

lemma c1_nearest : nearestMass cu.massCount cms ⟨0, 0⟩ = ⟨1, 0⟩ := by
  simp [nearestMass, cu, cms]

lemma c1_targetPos : targetPosOf cu cms ⟨0, 0⟩ 0 = ⟨1, 0⟩ := by
  unfold targetPosOf
  rw [c1_nearest]
  unfold wiggleOffsetOf
  simp [cu, vadd, vscale]

lemma c1_targetDir : targetDirOf cu cms ⟨0, 0⟩ 0 = ⟨1, 0⟩ := by
  unfold targetDirOf
  rw [c1_targetPos]
  simp only [show vsub ⟨1, 0⟩ ⟨0, 0⟩ = (⟨1, 0⟩ : V2) by simp [vsub], vlen_e1]
  rw [if_pos (by norm_num : (1 : ℝ) > 0.001)]
  simp [vscale]
  norm_num

lemma c1_spring : springForce cu cms ⟨0, 0⟩ 0 = ⟨32, 0⟩ := by
  unfold springForce
  rw [c1_targetDir, c1_targetPos]
  rw [show vsub ⟨1, 0⟩ ⟨0, 0⟩ = (⟨1, 0⟩ : V2) by simp [vsub]]
  rw [vlen_e1]
  simp [cu, vscale, mix]
  norm_num

lemma c1_gravity : gravityForce cu cms ⟨0, 0⟩ 0 = ⟨1, 0⟩ := by
  unfold gravityForce
  rw [c1_targetDir]
  simp [cu, vscale]

lemma c1_damping : dampingForce cu ⟨0, 0⟩ = ⟨0, 0⟩ := by
  simp [dampingForce, vscale]

lemma c1_rest : restForce cu ⟨0, 0⟩ ⟨0, 0⟩ = ⟨0, 0⟩ := by
  simp [restForce, vsub, vscale]

lemma c1_wiggle : wiggleForce cu 0 = ⟨0, 0⟩ := by
  simp [wiggleForce, cu, vscale]

lemma c1_push (step : Nat) : repulsionPush cu cps ⟨0, 0⟩ 0 step = ⟨0, 0⟩ := by
  unfold repulsionPush
  rw [show (0 + step) % cu.massCount = 0 by simp [cu, Nat.mod_one]]
  simp only [show (cps.getD 0 pzero).position = (⟨0, 0⟩ : V2) from rfl,
    show vsub (⟨0, 0⟩ : V2) ⟨0, 0⟩ = (⟨0, 0⟩ : V2) by simp [vsub],
    show vdot (⟨0, 0⟩ : V2) ⟨0, 0⟩ = (0 : ℝ) by simp [vdot]]
  rw [if_pos (by norm_num : (0 : ℝ) < 0.05 * 0.05)]
  simp [vscale]

lemma c1_repulsion : repulsionForce cu cps ⟨0, 0⟩ 0 = ⟨0, 0⟩ := by
  unfold repulsionForce
  simp [c1_push, vadd]

lemma c1_total : totalForce cu cms crs cps 0 = ⟨33, 0⟩ := by
  unfold totalForce
  simp only [show (cps.getD 0 pzero).position = (⟨0, 0⟩ : V2) from rfl,
    show (cps.getD 0 pzero).velocity = (⟨0, 0⟩ : V2) from rfl,
    show crs.getD 0 ⟨0, 0⟩ = (⟨0, 0⟩ : V2) from rfl,
    c1_rest, c1_repulsion, c1_gravity, c1_spring, c1_damping, c1_wiggle]
  simp [vadd]
  norm_num

lemma c1_five : specFiveForceSum cu cms crs cps 0 = ⟨32, 0⟩ := by
  unfold specFiveForceSum
  simp only [show (cps.getD 0 pzero).position = (⟨0, 0⟩ : V2) from rfl,
    show (cps.getD 0 pzero).velocity = (⟨0, 0⟩ : V2) from rfl,
    show crs.getD 0 ⟨0, 0⟩ = (⟨0, 0⟩ : V2) from rfl,
    c1_rest, c1_repulsion, c1_spring, c1_damping, c1_wiggle]
  simp [vadd]

/-- Claim C1, as stated, is false of the kernel: at a concrete state the
total force is `(33, 0)` while the sum of the five components the spec
names is `(32, 0)` — the additive gravity term `targetDir *
(gravityStrength * hover)` is not in the spec's list. -/
theorem total_force_five_term_counterexample :
    totalForce cu cms crs cps 0 ≠ specFiveForceSum cu cms crs cps 0 ∧
    totalForce cu cms crs cps 0 = ⟨33, 0⟩ ∧
    specFiveForceSum cu cms crs cps 0 = ⟨32, 0⟩ := by
  refine ⟨?_, c1_total, c1_five⟩
  rw [c1_total, c1_five]
  intro h
  have hx := congrArg V2.x h
  norm_num at hx

/-- Claim C1 (amended): the per-frame total force is the sum of exactly six
additive components — the five named by the spec plus the gravity pull of
constant magnitude `gravityStrength * hover` along the target direction —
and nothing else. -/
theorem total_force_components (u : Uniforms) (masses rests : List V2)
    (pIn : List Particle) (i : Nat) :
    (totalForce u masses rests pIn i).x =
      (springForce u masses (pIn.getD i pzero).position i).x +
      (dampingForce u (pIn.getD i pzero).velocity).x +
      (repulsionForce u pIn (pIn.getD i pzero).position i).x +
      (restForce u (rests.getD i ⟨0, 0⟩) (pIn.getD i pzero).position).x +
      (wiggleForce u i).x +
      (gravityForce u masses (pIn.getD i pzero).position i).x ∧
    (totalForce u masses rests pIn i).y =
      (springForce u masses (pIn.getD i pzero).position i).y +
      (dampingForce u (pIn.getD i pzero).velocity).y +
      (repulsionForce u pIn (pIn.getD i pzero).position i).y +
      (restForce u (rests.getD i ⟨0, 0⟩) (pIn.getD i pzero).position).y +
      (wiggleForce u i).y +
      (gravityForce u masses (pIn.getD i pzero).position i).y := by
  unfold totalForce
  simp only [vadd]
  constructor <;> ring

theorem total_force_components_witness :
    (totalForce cu cms crs cps 0).x =
      (springForce cu cms (cps.getD 0 pzero).position 0).x +
      (dampingForce cu (cps.getD 0 pzero).velocity).x +
      (repulsionForce cu cps (cps.getD 0 pzero).position 0).x +
      (restForce cu (crs.getD 0 ⟨0, 0⟩) (cps.getD 0 pzero).position).x +
      (wiggleForce cu 0).x +
      (gravityForce cu cms (cps.getD 0 pzero).position 0).x ∧
    (totalForce cu cms crs cps 0).y =
      (springForce cu cms (cps.getD 0 pzero).position 0).y +
      (dampingForce cu (cps.getD 0 pzero).velocity).y +
      (repulsionForce cu cps (cps.getD 0 pzero).position 0).y +
      (restForce cu (crs.getD 0 ⟨0, 0⟩) (cps.getD 0 pzero).position).y +
      (wiggleForce cu 0).y +
      (gravityForce cu cms (cps.getD 0 pzero).position 0).y :=
  total_force_components cu cms crs cps 0

end MagneticLogo
